import Mathlib

/-!
Verification of the on-chain event indexing subsystem of the
storacha-marketplace backend: the purchase event listener
(`services/eventListener.ts`: `processLog`, `pollOnce`) and the backfill
runner (`services/backfill.ts`: `backfillRange`), shallowly embedded over
an explicit database state.

External collaborators are modelled at their boundary: the chain log
source (`publicClient.getBlockNumber` / `getLogs` behind `withRetry`,
which retries transiently and then surfaces the error, so it collapses
to a single `Except` outcome in a pure model), the viem event decoder
`decodeEventLog`, the Prisma store (`$transaction` runs its body against
the store and rolls every write back if the body throws), and the
notification sink `notifySeller`.  Fault flags in the environment model
a collaborator call raising at the corresponding program point.
-/

namespace Marketplace

/-- A raw log as delivered by `publicClient.getLogs`.  `blockNumber`,
`transactionHash` and `logIndex` are nullable in the source
(`log.blockNumber == null`, `!log.transactionHash`, `log.logIndex == null`);
`transactionHash` is additionally falsy when it is the empty string. -/
structure RawLog where
  blockNumber : Option Int
  transactionHash : Option String
  logIndex : Option Int
  data : String
  topics : List String
  deriving Repr, DecidableEq

/-- The decoded `PurchaseCompleted` event payload
(`decoded.args`: listingId, buyer, seller, amountUsdc). -/
structure DecodedArgs where
  listingId : Int
  buyer : String
  seller : String
  amountUsdc : Int
  deriving Repr, DecidableEq

/-- A Listing row; the subsystem reads it by `onchainId` only. -/
structure Listing where
  id : String
  onchainId : Int
  deriving Repr, DecidableEq

/-- A Purchase row as created by `tx.purchase.upsert` in `processLog`. -/
structure Purchase where
  id : String
  listingId : String
  buyerAddress : String
  txHash : String
  amountUsdc : String
  txVerified : Bool
  blockNumber : Int
  deriving Repr, DecidableEq

/-- An EventLog row as created by `tx.eventLog.create` in `processLog`. -/
structure EventLogRow where
  eventType : String
  txHash : String
  logIndex : Int
  blockNumber : Int
  processed : Bool
  deriving Repr, DecidableEq

/-- The persistent store state: the three tables the subsystem touches. -/
structure Db where
  listings : List Listing
  purchases : List Purchase
  eventLogs : List EventLogRow
  deriving Repr, DecidableEq

/-- `prismaDB.eventLog.findUnique({ where: { txHash_logIndex } })`. -/
def eventLogFindUnique (db : Db) (txHash : String) (logIndex : Int) :
    Option EventLogRow :=
  db.eventLogs.find? fun r => r.txHash == txHash && r.logIndex == logIndex

/-- `tx.listing.findUnique({ where: { onchainId } })`. -/
def listingFindUnique (db : Db) (onchainId : Int) : Option Listing :=
  db.listings.find? fun l => l.onchainId == onchainId

/-- `prismaDB.purchase.findUnique`-style lookup by the natural key `txHash`. -/
def purchaseFindUnique (db : Db) (txHash : String) : Option Purchase :=
  db.purchases.find? fun p => p.txHash == txHash

/-- `tx.purchase.upsert({ where: { txHash }, update: \x7b\x7d, create })`:
if a row with this `txHash` exists the update is empty (no-op) and the
existing row is returned, otherwise the `create` row is inserted and
returned.  Row ids are database-generated in the source; the model makes
them deterministic. -/
def purchaseUpsert (db : Db) (p : Purchase) : Purchase × Db :=
  match purchaseFindUnique db p.txHash with
  | some existing => (existing, db)
  | none => (p, { db with purchases := db.purchases ++ [p] })

/-- Errors raised out of `processLog` (collaborator exceptions included). -/
inductive ProcErr where
  /-- `decodeEventLog` threw (malformed payload / wrong ABI). -/
  | decodeFailed
  /-- `throw new Error('LISTING_NOT_FOUND')` inside the transaction. -/
  | listingNotFound
  /-- `tx.eventLog.create` threw inside the transaction
  (e.g. the `(txHash, logIndex)` uniqueness constraint fired). -/
  | eventLogCreateFailed
  /-- `notifySeller` rejected after the transaction committed. -/
  | notifyFailed
  deriving Repr, DecidableEq

/-- The `message` of the thrown error, as read by
`error instanceof Error ? error.message : String(error)`. -/
def ProcErr.message : ProcErr → String
  | .decodeFailed => "DECODE_ERROR"
  | .listingNotFound => "LISTING_NOT_FOUND"
  | .eventLogCreateFailed => "EVENTLOG_CREATE_FAILED"
  | .notifyFailed => "NOTIFY_FAILED"

/-- Collaborator behavior for one processing pass: the decoder outcome
for each raw log (`none` models `decodeEventLog` throwing), and fault
flags that model `tx.eventLog.create` or `notifySeller` raising. -/
structure Env where
  decode : RawLog → Option DecodedArgs
  eventLogCreateFault : Bool
  notifyFault : Bool

/-- JS falsiness of `log.transactionHash`: null or the empty string. -/
def txHashFalsy : Option String → Bool
  | none => true
  | some s => s == ""

/-- `processLog(log)` from `services/eventListener.ts`.

Returns the store state after the call together with the call's outcome.
Steps, in source order: (1) skip logs with missing
blockNumber/transactionHash/logIndex; (2) return if an EventLog with
this `(txHash, logIndex)` already exists; (3) decode, propagating a
decode failure; (4-5) inside `prismaDB.$transaction`: look up the
Listing by `Number(listingId)` (throw `LISTING_NOT_FOUND` if absent),
upsert the Purchase keyed by `txHash`, insert the EventLog row with
`processed: true` — a throw anywhere in the body rolls the whole
transaction back, so the pre-call state is returned on those errors;
(6) after commit, `notifySeller`, whose failure propagates after the
writes are already committed. -/
def processLog (env : Env) (log : RawLog) (db : Db) : Db × Except ProcErr Unit :=
  match log.blockNumber, log.logIndex with
  | some blockNumber, some logIndex =>
    if txHashFalsy log.transactionHash then
      (db, .ok ())
    else
      let txHash := log.transactionHash.getD ""
      match eventLogFindUnique db txHash logIndex with
      | some _ => (db, .ok ())
      | none =>
        match env.decode log with
        | none => (db, .error .decodeFailed)
        | some decoded =>
          match listingFindUnique db decoded.listingId with
          | none => (db, .error .listingNotFound)
          | some listing =>
            let (_, txDb) := purchaseUpsert db
              { id := txHash
                listingId := listing.id
                buyerAddress := decoded.buyer
                txHash := txHash
                amountUsdc := toString decoded.amountUsdc
                txVerified := true
                blockNumber := blockNumber }
            if env.eventLogCreateFault then
              (db, .error .eventLogCreateFailed)
            else
              let committed :=
                { txDb with eventLogs := txDb.eventLogs ++
                    [{ eventType := "PurchaseCompleted"
                       txHash := txHash
                       logIndex := logIndex
                       blockNumber := blockNumber
                       processed := true }] }
              if env.notifyFault then
                (committed, .error .notifyFailed)
              else
                (committed, .ok ())
  | _, _ => (db, .ok ())

/-- `MAX_BLOCK_CHUNK = 2_000n` from `services/eventListener.ts`. -/
def MAX_BLOCK_CHUNK : Int := 2000

/-- One step of the chunk computation shared verbatim by `pollOnce` and
`backfillRange`:
`chunkStart + MAX_BLOCK_CHUNK - 1n < to ? chunkStart + MAX_BLOCK_CHUNK - 1n : to`. -/
def chunkEnd (chunkStart upTo maxSpan : Int) : Int :=
  if chunkStart + maxSpan - 1 < upTo then chunkStart + maxSpan - 1 else upTo

/-- The ordered chunk sequence traversed by the
`while (chunkStart <= to) { ...; chunkStart = chunkEnd + 1n }` loops of
`pollOnce` and `backfillRange`.  The source instantiates
`maxSpan = MAX_BLOCK_CHUNK = 2000`; positivity of `maxSpan` is part of
the guard because the source loop only terminates for a positive span. -/
def chunks (f t maxSpan : Int) : List (Int × Int) :=
  if h : f ≤ t ∧ 1 ≤ maxSpan then
    (f, chunkEnd f t maxSpan) :: chunks (chunkEnd f t maxSpan + 1) t maxSpan
  else []
termination_by (t + 1 - f).toNat
decreasing_by
  unfold chunkEnd
  split <;> omega

/-- The inclusive integer range `[f, t]` as a list, used to state chunk
coverage. -/
def rangeInt (f t : Int) : List Int :=
  if f ≤ t then f :: rangeInt (f + 1) t else []
termination_by (t + 1 - f).toNat
decreasing_by omega

/-- `prismaDB.eventLog.findFirst({ orderBy: { blockNumber: 'desc' } })`,
projected to the only field the cursor uses: the highest `blockNumber`
among the persisted EventLog rows (or `none` when the table is empty). -/
def lastEventBlock (db : Db) : Option Int :=
  db.eventLogs.foldl
    (fun acc r =>
      match acc with
      | none => some r.blockNumber
      | some b => some (max b r.blockNumber))
    none

/-- The cursor resolution inlined in `pollOnce`:
`lastEvent ? BigInt(lastEvent.blockNumber) : confirmedBlock - 5n`. -/
def resolveFromBlock (db : Db) (confirmedBlock : Int) : Int :=
  match lastEventBlock db with
  | some b => b
  | none => confirmedBlock - 5

/-- Errors surfaced by a polling cycle. -/
inductive PollErr where
  /-- An RPC call failed even after `withRetry` exhausted its retries. -/
  | rpc
  /-- `processLog` raised. -/
  | proc (e : ProcErr)
  deriving Repr, DecidableEq

/-- The chain log source for one cycle, at the `withRetry` boundary:
`withRetry` retries a transient failure with backoff and then rethrows,
so each wrapped call collapses to a single `Except` outcome.
`confirmations` is the imported `CONFIRMATIONS_REQUIRED` constant. -/
structure ChainEnv where
  confirmations : Int
  getBlockNumber : Except Unit Int
  getLogs : Int → Int → Except Unit (List RawLog)

/-- `for (const log of logs) { await processLog(log) }`: sequential
processing that stops at the first raised error, which propagates. -/
def processLogs (env : Env) (logs : List RawLog) (db : Db) :
    Db × Except ProcErr Unit :=
  match logs with
  | [] => (db, .ok ())
  | l :: rest =>
    match processLog env l db with
    | (db', .ok _) => processLogs env rest db'
    | (db', .error e) => (db', .error e)

/-- The chunk loop body of `pollOnce`: for each chunk in order, fetch the
logs of that block range and process them sequentially. -/
def pollChunks (cenv : ChainEnv) (env : Env) (cs : List (Int × Int)) (db : Db) :
    Db × Except PollErr Unit :=
  match cs with
  | [] => (db, .ok ())
  | c :: rest =>
    match cenv.getLogs c.1 c.2 with
    | .error _ => (db, .error .rpc)
    | .ok logs =>
      match processLogs env logs db with
      | (db', .ok _) => pollChunks cenv env rest db'
      | (db', .error e) => (db', .error (.proc e))

/-- The body of `pollOnce` between the guard lines: fetch the latest
height, derive the confirmed height, resolve the cursor from the
EventLog table, return immediately when `fromBlock > confirmedBlock`,
otherwise scan the chunked range. -/
def pollBody (cenv : ChainEnv) (env : Env) (db : Db) :
    Db × Except PollErr Unit :=
  match cenv.getBlockNumber with
  | .error _ => (db, .error .rpc)
  | .ok latestBlock =>
    let confirmedBlock := latestBlock - cenv.confirmations
    let fromBlock := resolveFromBlock db confirmedBlock
    if fromBlock > confirmedBlock then
      (db, .ok ())
    else
      pollChunks cenv env (chunks fromBlock confirmedBlock MAX_BLOCK_CHUNK) db

/-- The module state of the listener: the `polling` re-entrancy flag and
the store. -/
structure ListenerState where
  polling : Bool
  db : Db
  deriving Repr, DecidableEq

/-- `pollOnce()` from `services/eventListener.ts`:
`if (polling) return; polling = true; try { ...body... } finally { polling = false }`.
A call that observes the flag set returns at once (the tick is dropped);
otherwise the body runs and the `finally` clears the flag on every exit
path, normal or raising. -/
def pollOnce (cenv : ChainEnv) (env : Env) (s : ListenerState) :
    ListenerState × Except PollErr Unit :=
  if s.polling then
    (s, .ok ())
  else
    match pollBody cenv env s.db with
    | (db, r) => ({ polling := false, db := db }, r)

/-- Per-event outcome tag in the backfill report
(`status: 'created' | 'skipped' | 'error'`). -/
inductive EventStatus where
  | created
  | skipped
  | failed
  deriving Repr, DecidableEq

/-- `BackfillEventDetail` from `services/backfill.ts`. -/
structure BackfillEventDetail where
  txHash : String
  logIndex : Int
  blockNumber : Int
  listingId : String
  buyer : String
  amountUsdc : String
  status : EventStatus
  errText : Option String
  deriving Repr, DecidableEq

/-- `BackfillResult` from `services/backfill.ts`. -/
structure BackfillResult where
  fromBlock : Int
  toBlock : Int
  dryRun : Bool
  blocksScanned : Int
  eventsFound : Nat
  eventsCreated : Nat
  eventsSkipped : Nat
  eventsFailed : Nat
  events : List BackfillEventDetail
  deriving Repr, DecidableEq

/-- Errors that abort `backfillRange` as a whole. -/
inductive BackfillErr where
  /-- `fromBlock > toBlock`, rejected before any fetch. -/
  | invalidRange
  /-- `getLogs` failed even after `withRetry`. -/
  | rpc
  /-- `inspectLog` raised in the dry-run branch, which has no
  try/catch, so the error propagates out of the whole run. -/
  | inspect (e : ProcErr)
  deriving Repr, DecidableEq

/-- What `inspectLog` returns for one raw log. -/
structure InspectInfo where
  txHash : String
  logIndex : Int
  blockNumber : Int
  alreadyProcessed : Bool
  listingId : String
  buyer : String
  amountUsdc : String
  deriving Repr, DecidableEq

/-- `inspectLog(log)` from `services/backfill.ts`: look up the dedup
ledger for this `(txHash, logIndex)`, decode the payload (a decode
failure propagates), and report the decoded display fields together
with `alreadyProcessed`.  The caller's loop guard has already excluded
missing fields, so the nullable reads are defaulted. -/
def inspectLog (env : Env) (log : RawLog) (db : Db) :
    Except ProcErr InspectInfo :=
  let txHash := log.transactionHash.getD ""
  let logIndex := log.logIndex.getD 0
  let blockNumber := log.blockNumber.getD 0
  let existing := eventLogFindUnique db txHash logIndex
  match env.decode log with
  | none => .error .decodeFailed
  | some decoded =>
    .ok
      { txHash := txHash
        logIndex := logIndex
        blockNumber := blockNumber
        alreadyProcessed := existing.isSome
        listingId := toString decoded.listingId
        buyer := decoded.buyer
        amountUsdc := toString decoded.amountUsdc }

/-- The per-log loop of `backfillRange` over one chunk's fetched logs.
A log missing blockNumber/transactionHash/logIndex is skipped by
`continue` before any classification.  In dry-run mode the log is
classified from `inspectLog` alone, with no write.  In live mode
`processLog` runs inside try/catch: on success the event is counted
`created`; on a raised error it is counted `failed` with the error
message and `'unknown'` display fields, and the loop continues. -/
def backfillLogs (env : Env) (dryRun : Bool) (logs : List RawLog)
    (db : Db) (r : BackfillResult) :
    Except BackfillErr (Db × BackfillResult) :=
  match logs with
  | [] => .ok (db, r)
  | log :: rest =>
    if log.blockNumber.isNone || txHashFalsy log.transactionHash
        || log.logIndex.isNone then
      backfillLogs env dryRun rest db r
    else if dryRun then
      match inspectLog env log db with
      | .error e => .error (.inspect e)
      | .ok info =>
        let detail : BackfillEventDetail :=
          { txHash := info.txHash
            logIndex := info.logIndex
            blockNumber := info.blockNumber
            listingId := info.listingId
            buyer := info.buyer
            amountUsdc := info.amountUsdc
            status := if info.alreadyProcessed then .skipped else .created
            errText := none }
        let r' :=
          if info.alreadyProcessed then
            { r with eventsSkipped := r.eventsSkipped + 1
                     events := r.events ++ [detail] }
          else
            { r with eventsCreated := r.eventsCreated + 1
                     events := r.events ++ [detail] }
        backfillLogs env dryRun rest db r'
    else
      let txHash := log.transactionHash.getD ""
      let logIndex := log.logIndex.getD 0
      match processLog env log db with
      | (db', .ok _) =>
        match inspectLog env log db' with
        | .ok info =>
          let r' :=
            { r with eventsCreated := r.eventsCreated + 1
                     events := r.events ++
                       [{ txHash := txHash
                          logIndex := logIndex
                          blockNumber := log.blockNumber.getD 0
                          listingId := info.listingId
                          buyer := info.buyer
                          amountUsdc := info.amountUsdc
                          status := .created
                          errText := none }] }
          backfillLogs env dryRun rest db' r'
        | .error e =>
          let r' :=
            { r with eventsFailed := r.eventsFailed + 1
                     events := r.events ++
                       [{ txHash := txHash
                          logIndex := logIndex
                          blockNumber := log.blockNumber.getD 0
                          listingId := "unknown"
                          buyer := "unknown"
                          amountUsdc := "unknown"
                          status := .failed
                          errText := some e.message }] }
          backfillLogs env dryRun rest db' r'
      | (db', .error e) =>
        let r' :=
          { r with eventsFailed := r.eventsFailed + 1
                   events := r.events ++
                     [{ txHash := txHash
                        logIndex := logIndex
                        blockNumber := log.blockNumber.getD 0
                        listingId := "unknown"
                        buyer := "unknown"
                        amountUsdc := "unknown"
                        status := .failed
                        errText := some e.message }] }
        backfillLogs env dryRun rest db' r'

/-- The chunk loop of `backfillRange`: fetch each chunk's logs, add the
chunk's block count to `blocksScanned` and the batch size to
`eventsFound`, then run the per-log loop. -/
def backfillChunks (cenv : ChainEnv) (env : Env) (dryRun : Bool)
    (cs : List (Int × Int)) (db : Db) (r : BackfillResult) :
    Except BackfillErr (Db × BackfillResult) :=
  match cs with
  | [] => .ok (db, r)
  | c :: rest =>
    match cenv.getLogs c.1 c.2 with
    | .error _ => .error .rpc
    | .ok logs =>
      let r1 :=
        { r with blocksScanned := r.blocksScanned + (c.2 - c.1 + 1)
                 eventsFound := r.eventsFound + logs.length }
      match backfillLogs env dryRun logs db r1 with
      | .error e => .error e
      | .ok (db', r') => backfillChunks cenv env dryRun rest db' r'

/-- `backfillRange({ fromBlock, toBlock, dryRun })` from
`services/backfill.ts`: reject `fromBlock > toBlock`, then scan the
chunked range, accumulating the report. -/
def backfillRange (cenv : ChainEnv) (env : Env)
    (fromBlock toBlock : Int) (dryRun : Bool) (db : Db) :
    Except BackfillErr (Db × BackfillResult) :=
  if fromBlock > toBlock then
    .error .invalidRange
  else
    backfillChunks cenv env dryRun
      (chunks fromBlock toBlock MAX_BLOCK_CHUNK) db
      { fromBlock := fromBlock
        toBlock := toBlock
        dryRun := dryRun
        blocksScanned := 0
        eventsFound := 0
        eventsCreated := 0
        eventsSkipped := 0
        eventsFailed := 0
        events := [] }

/-- Concatenation of the inclusive block ranges of a chunk list, used to
state that the chunk sequence exactly covers the scanned range. -/
def chunksFlat : List (Int × Int) → List Int
  | [] => []
  | c :: rest => rangeInt c.1 c.2 ++ chunksFlat rest

/-- A decoded `PurchaseCompleted` payload used in concrete scenarios,
mirroring the repository's test fixtures. -/
def decodedX : DecodedArgs :=
  { listingId := 42, buyer := "0xbuyer", seller := "0xseller",
    amountUsdc := 10000000 }

/-- Collaborator environment in which decoding always succeeds and no
store or notification call raises. -/
def envX : Env :=
  { decode := fun _ => some decodedX, eventLogCreateFault := false,
    notifyFault := false }

/-- Environment in which `tx.eventLog.create` raises inside the
transaction (simulated failure after the Purchase upsert). -/
def envFaultX : Env :=
  { decode := fun _ => some decodedX, eventLogCreateFault := true,
    notifyFault := false }

/-- Environment in which `notifySeller` rejects after the transaction
commits. -/
def envNotifyX : Env :=
  { decode := fun _ => some decodedX, eventLogCreateFault := false,
    notifyFault := true }

/-- Environment in which `decodeEventLog` throws on every log. -/
def envNoDecodeX : Env :=
  { decode := fun _ => none, eventLogCreateFault := false,
    notifyFault := false }

/-- A well-formed raw log at block 1500 with key `("0xtx1", 0)`. -/
def logX : RawLog :=
  { blockNumber := some 1500, transactionHash := some "0xtx1",
    logIndex := some 0, data := "0x", topics := ["0xtopic"] }

/-- A raw log with all three critical fields missing. -/
def logBadX : RawLog :=
  { blockNumber := none, transactionHash := none, logIndex := none,
    data := "0x", topics := [] }

/-- The listing referenced on-chain by `decodedX.listingId`. -/
def listingX : Listing := { id := "listing-id", onchainId := 42 }

/-- An unrelated EventLog row at block 1500 (a previously indexed event),
giving the cursor resolver a nonempty ledger. -/
def rowOldX : EventLogRow :=
  { eventType := "PurchaseCompleted", txHash := "0xold", logIndex := 7,
    blockNumber := 1500, processed := true }

/-- The EventLog row that indexing `logX` produces. -/
def rowIndexedX : EventLogRow :=
  { eventType := "PurchaseCompleted", txHash := "0xtx1", logIndex := 0,
    blockNumber := 1500, processed := true }

/-- The Purchase row that indexing `logX` produces. -/
def purchaseX : Purchase :=
  { id := "0xtx1", listingId := "listing-id", buyerAddress := "0xbuyer",
    txHash := "0xtx1", amountUsdc := "10000000", txVerified := true,
    blockNumber := 1500 }

/-- Store in which `logX` has not yet been indexed and its listing
exists. -/
def dbFreshX : Db :=
  { listings := [listingX], purchases := [], eventLogs := [rowOldX] }

/-- Store with no EventLog rows at all (cold start). -/
def dbEmptyX : Db :=
  { listings := [listingX], purchases := [], eventLogs := [] }

/-- Store in which the listing referenced by `logX` does not exist. -/
def dbNoListingX : Db :=
  { listings := [], purchases := [], eventLogs := [rowOldX] }

/-- Store in which `logX` has already been indexed. -/
def dbIndexedX : Db :=
  { listings := [listingX], purchases := [purchaseX],
    eventLogs := [rowIndexedX] }

/-- Chain source whose confirmed height is 1500 and whose log fetches
return exactly `[logX]`. -/
def cenvX : ChainEnv :=
  { confirmations := 5, getBlockNumber := .ok 1505,
    getLogs := fun _ _ => .ok [logX] }

/-- Chain source whose log fetches return exactly one malformed log. -/
def cenvBadX : ChainEnv :=
  { confirmations := 5, getBlockNumber := .ok 1505,
    getLogs := fun _ _ => .ok [logBadX] }

/-- An empty inclusive range produces the empty list. -/
theorem rangeInt_nil (f t : Int) (h : t < f) : rangeInt f t = [] := by
  rw [rangeInt.eq_def, if_neg (by omega)]

/-- Splitting an inclusive range at an interior point. -/
theorem rangeInt_split (f e t : Int) (h1 : f ≤ e + 1) (h2 : e ≤ t) :
    rangeInt f t = rangeInt f e ++ rangeInt (e + 1) t := by
  by_cases hfe : f ≤ e
  · rw [rangeInt.eq_def, if_pos (le_trans hfe h2)]
    conv_rhs => rw [rangeInt.eq_def]
    rw [if_pos hfe, List.cons_append]
    exact congrArg _ (rangeInt_split (f + 1) e t (by omega) h2)
  · rw [rangeInt_nil f e (by omega), List.nil_append]
    have hf : f = e + 1 := by omega
    rw [hf]
termination_by (e + 1 - f).toNat
decreasing_by omega

/-- The first chunk end is at or after the chunk start. -/
theorem chunkEnd_ge (f t m : Int) (hft : f ≤ t) (hm : 1 ≤ m) :
    f ≤ chunkEnd f t m := by
  unfold chunkEnd; split <;> omega

/-- The first chunk end never exceeds the scan end. -/
theorem chunkEnd_le (f t m : Int) : chunkEnd f t m ≤ t := by
  unfold chunkEnd; split <;> omega

/-- The chunk sequence concatenates to exactly the inclusive scanned
range: no block is missed and none is scanned twice. -/
theorem chunks_flatten (f t m : Int) (hm : 1 ≤ m) :
    chunksFlat (chunks f t m) = rangeInt f t := by
  by_cases hft : f ≤ t
  · rw [chunks.eq_def, dif_pos ⟨hft, hm⟩]
    simp only [chunksFlat]
    rw [chunks_flatten (chunkEnd f t m + 1) t m hm]
    exact (rangeInt_split f (chunkEnd f t m) t
      (by have := chunkEnd_ge f t m hft hm; omega)
      (chunkEnd_le f t m)).symm
  · rw [chunks.eq_def, dif_neg (fun hc => hft hc.1), rangeInt_nil f t (by omega)]
    rfl
termination_by (t + 1 - f).toNat
decreasing_by
  have := chunkEnd_ge f t m hft hm
  omega

/-- Every chunk is well-ordered and spans at most `maxSpan` blocks. -/
theorem chunks_spans (f t m : Int) (hm : 1 ≤ m) :
    ∀ c ∈ chunks f t m, c.1 ≤ c.2 ∧ c.2 - c.1 + 1 ≤ m := by
  intro c hc
  by_cases hft : f ≤ t
  · rw [chunks.eq_def, dif_pos ⟨hft, hm⟩] at hc
    rcases List.mem_cons.mp hc with h | h
    · subst h
      refine ⟨chunkEnd_ge f t m hft hm, ?_⟩
      simp only []
      unfold chunkEnd
      split <;> omega
    · exact chunks_spans (chunkEnd f t m + 1) t m hm c h
  · rw [chunks.eq_def, dif_neg (fun hc2 => hft hc2.1)] at hc
    exact absurd hc (List.not_mem_nil c)
termination_by (t + 1 - f).toNat
decreasing_by
  have := chunkEnd_ge f t m hft hm
  omega

/-- A one-block scan range yields the single chunk covering that block. -/
theorem chunks_self (a m : Int) (hm : 1 ≤ m) : chunks a a m = [(a, a)] := by
  have he : chunkEnd a a m = a := by unfold chunkEnd; split <;> omega
  rw [chunks.eq_def, dif_pos ⟨le_refl a, hm⟩, he, chunks.eq_def,
    dif_neg (by omega)]

/-- The running-maximum fold underlying `lastEventBlock` computes an
upper bound that is attained by the accumulator or some list element. -/
theorem foldl_max_spec (l : List EventLogRow) :
    ∀ (acc : Option Int) (b : Int),
      l.foldl
        (fun acc r =>
          match acc with
          | none => some r.blockNumber
          | some x => some (max x r.blockNumber)) acc = some b →
      (∀ r ∈ l, r.blockNumber ≤ b) ∧
      (acc = some b ∨ ∃ r ∈ l, r.blockNumber = b) ∧
      (∀ a, acc = some a → a ≤ b) := by
  induction l with
  | nil =>
    intro acc b hb
    simp at hb
    subst hb
    exact ⟨by simp, Or.inl rfl, by simp⟩
  | cons r t ih =>
    intro acc b hb
    simp only [List.foldl_cons] at hb
    obtain ⟨h1, h2, h3⟩ := ih _ b hb
    have hsome : ∃ x, (match acc with
        | none => some r.blockNumber
        | some x => some (max x r.blockNumber)) = some x := by
      cases acc <;> simp
    obtain ⟨x, hx⟩ := hsome
    have hrx : r.blockNumber ≤ x := by
      cases acc with
      | none =>
        have hx2 : some r.blockNumber = some x := hx
        injection hx2 with h
        omega
      | some a =>
        have hx2 : some (max a r.blockNumber) = some x := hx
        injection hx2 with h
        subst h
        exact le_max_right _ _
    have hxb : x ≤ b := h3 x hx
    refine ⟨?_, ?_, ?_⟩
    · intro r2 hr2
      rcases List.mem_cons.mp hr2 with h | h
      · subst h; exact le_trans hrx hxb
      · exact h1 r2 h
    · rcases h2 with h | ⟨r2, hr2, hval⟩
      · rw [hx] at h
        injection h with h
        subst h
        cases hax : acc with
        | none =>
          rw [hax] at hx
          have hx2 : some r.blockNumber = some x := hx
          injection hx2 with h
          exact Or.inr ⟨r, List.mem_cons_self r t, h⟩
        | some a =>
          rw [hax] at hx
          have hx2 : some (max a r.blockNumber) = some x := hx
          injection hx2 with h
          rcases max_choice a r.blockNumber with hm | hm
          · exact Or.inl (by rw [hm] at h; rw [h])
          · exact Or.inr ⟨r, List.mem_cons_self r t, by rw [hm] at h; exact h⟩
      · exact Or.inr ⟨r2, List.mem_cons_of_mem r hr2, hval⟩
    · intro a ha
      rw [ha] at hx
      have hx2 : some (max a r.blockNumber) = some x := hx
      injection hx2 with h
      subst h
      exact le_trans (le_max_left _ _) hxb

/-- When `lastEventBlock` returns a block, it is exactly the highest
`blockNumber` among the persisted EventLog rows. -/
theorem lastEventBlock_is_max (db : Db) (b : Int)
    (hb : lastEventBlock db = some b) :
    (∀ r ∈ db.eventLogs, r.blockNumber ≤ b) ∧
    ∃ r ∈ db.eventLogs, r.blockNumber = b := by
  have h := foldl_max_spec db.eventLogs none b hb
  exact ⟨h.1, h.2.1.resolve_left (by simp)⟩

/-- The running-maximum fold never loses a `some` accumulator. -/
theorem foldl_max_isSome (t : List EventLogRow) :
    ∀ acc : Option Int, acc.isSome →
      (t.foldl
        (fun acc r =>
          match acc with
          | none => some r.blockNumber
          | some x => some (max x r.blockNumber)) acc).isSome := by
  induction t with
  | nil => intro acc h; simpa using h
  | cons r t2 ih =>
    intro acc h
    simp only [List.foldl_cons]
    apply ih
    cases acc <;> simp

/-- A nonempty EventLog table always yields a cursor block. -/
theorem lastEventBlock_isSome (db : Db) (h : db.eventLogs ≠ []) :
    (lastEventBlock db).isSome := by
  unfold lastEventBlock
  cases hl : db.eventLogs with
  | nil => exact absurd hl h
  | cons r t =>
    simp only [List.foldl_cons]
    apply foldl_max_isSome
    simp

/-- C1: processing a raw log with a well-formed `(txHash, logIndex)` key
twice results in exactly one Purchase row and exactly one EventLog row;
the second invocation finds the existing EventLog row for that key and
returns without performing any write (the store is returned unchanged). -/
theorem c1_processLog_idempotent (env : Env) (log : RawLog) (db : Db)
    (bn : Int) (tx : String) (ix : Int) (d : DecodedArgs) (L : Listing)
    (hbn : log.blockNumber = some bn)
    (hh : log.transactionHash = some tx) (hne : tx ≠ "")
    (hi : log.logIndex = some ix)
    (hdec : env.decode log = some d)
    (hL : listingFindUnique db d.listingId = some L)
    (hfresh : eventLogFindUnique db tx ix = none)
    (hp : purchaseFindUnique db tx = none)
    (hf1 : env.eventLogCreateFault = false)
    (hf2 : env.notifyFault = false) :
    ∃ db1,
      processLog env log db = (db1, .ok ()) ∧
      db1.purchases.countP (fun p => p.txHash == tx) = 1 ∧
      db1.eventLogs.countP (fun r => r.txHash == tx && r.logIndex == ix) = 1 ∧
      (eventLogFindUnique db1 tx ix).isSome ∧
      processLog env log db1 = (db1, .ok ()) := by
  have hfirst : processLog env log db =
      ({ db with
          purchases := db.purchases ++
            [{ id := tx, listingId := L.id, buyerAddress := d.buyer,
               txHash := tx, amountUsdc := toString d.amountUsdc,
               txVerified := true, blockNumber := bn }]
          eventLogs := db.eventLogs ++
            [{ eventType := "PurchaseCompleted", txHash := tx,
               logIndex := ix, blockNumber := bn, processed := true }] },
        .ok ()) := by
    simp [processLog, hbn, hh, hi, hdec, hL, hfresh, hf1, hf2, txHashFalsy, hne,
      purchaseUpsert, hp]
  have hsecond : eventLogFindUnique
      ({ db with
          purchases := db.purchases ++
            [{ id := tx, listingId := L.id, buyerAddress := d.buyer,
               txHash := tx, amountUsdc := toString d.amountUsdc,
               txVerified := true, blockNumber := bn }]
          eventLogs := db.eventLogs ++
            [{ eventType := "PurchaseCompleted", txHash := tx,
               logIndex := ix, blockNumber := bn, processed := true }] } : Db)
      tx ix =
      some { eventType := "PurchaseCompleted", txHash := tx,
             logIndex := ix, blockNumber := bn, processed := true } := by
    unfold eventLogFindUnique at hfresh ⊢
    simp [List.find?_append, hfresh]
  refine ⟨_, hfirst, ?_, ?_, ?_, ?_⟩
  · rw [List.countP_append]
    have h0 : db.purchases.countP (fun p => p.txHash == tx) = 0 := by
      rw [List.countP_eq_zero]
      intro a ha
      have := (List.find?_eq_none.mp hp) a ha
      simpa using this
    simp [h0]
  · rw [List.countP_append]
    have h0 : db.eventLogs.countP
        (fun r => r.txHash == tx && r.logIndex == ix) = 0 := by
      rw [List.countP_eq_zero]
      intro a ha
      have := (List.find?_eq_none.mp hfresh) a ha
      simpa using this
    simp [h0]
  · rw [hsecond]
    rfl
  · simp [processLog, hbn, hh, hi, txHashFalsy, hne, hsecond]

/-- Witness for C1 at the concrete fixture: `logX` against `dbFreshX`. -/
theorem c1_witness :
    ∃ db1, processLog envX logX dbFreshX = (db1, .ok ()) ∧
      db1.purchases.countP (fun p => p.txHash == "0xtx1") = 1 ∧
      db1.eventLogs.countP
        (fun r => r.txHash == "0xtx1" && r.logIndex == 0) = 1 ∧
      (eventLogFindUnique db1 "0xtx1" 0).isSome ∧
      processLog envX logX db1 = (db1, .ok ()) :=
  c1_processLog_idempotent envX logX dbFreshX 1500 "0xtx1" 0 decodedX listingX
    rfl rfl (by decide) rfl rfl (by decide) (by decide) rfl rfl rfl

/-- C4: for every `from ≤ to` and positive `maxSpan`, the chunk sequence
shared by `pollOnce` and `backfillRange` exactly covers the inclusive
range with no gaps or overlaps, each chunk spanning at most `maxSpan`
blocks; and the range `[1000, 5195]` with `maxSpan = 2000` yields
exactly the chunks `[1000,2999]`, `[3000,4999]`, `[5000,5195]`. -/
theorem c4_chunk_coverage (f t m : Int) (hft : f ≤ t) (hm : 1 ≤ m) :
    (chunksFlat (chunks f t m) = rangeInt f t ∧
      ∀ c ∈ chunks f t m, c.1 ≤ c.2 ∧ c.2 - c.1 + 1 ≤ m) ∧
    chunks 1000 5195 2000 = [(1000, 2999), (3000, 4999), (5000, 5195)] := by
  refine ⟨⟨chunks_flatten f t m hm, chunks_spans f t m hm⟩, ?_⟩
  rw [chunks.eq_def]
  norm_num [chunkEnd]
  rw [chunks.eq_def]
  norm_num [chunkEnd]
  rw [chunks.eq_def]
  norm_num [chunkEnd]
  rw [chunks.eq_def]
  norm_num

/-- Witness for C4 at the concrete range `[1000, 5195]`, `maxSpan = 2000`. -/
theorem c4_witness :
    chunksFlat (chunks 1000 5195 2000) = rangeInt 1000 5195 ∧
    (∀ c ∈ chunks 1000 5195 2000, c.1 ≤ c.2 ∧ c.2 - c.1 + 1 ≤ 2000) ∧
    chunks 1000 5195 2000 = [(1000, 2999), (3000, 4999), (5000, 5195)] := by
  obtain ⟨⟨h1, h2⟩, h3⟩ := c4_chunk_coverage 1000 5195 2000 (by norm_num)
    (by norm_num)
  exact ⟨h1, h2, h3⟩

/-- C3: in a polling cycle whose fetched batch starts with a log whose
listing lookup fails, sequential processing aborts at that log no matter
what follows it (the result is independent of the remaining logs, so the
second log is never processed), the cycle raises to its caller, the
store is unchanged (zero Purchase rows created), and the cursor derived
from the persisted EventLog rows is unchanged for the next attempt. -/
theorem c3_poll_fail_fast (cenv : ChainEnv) (env : Env) (db : Db) (N : Int)
    (l1 : RawLog) (rest : List RawLog)
    (bn : Int) (tx : String) (ix : Int) (d : DecodedArgs)
    (hlast : lastEventBlock db = some N)
    (hheight : cenv.getBlockNumber = .ok (N + cenv.confirmations))
    (hlogs : cenv.getLogs N N = .ok (l1 :: rest))
    (hbn : l1.blockNumber = some bn)
    (hh : l1.transactionHash = some tx) (hne : tx ≠ "")
    (hi : l1.logIndex = some ix)
    (hfresh : eventLogFindUnique db tx ix = none)
    (hdec : env.decode l1 = some d)
    (hL : listingFindUnique db d.listingId = none) :
    (∀ rest2 : List RawLog,
      processLogs env (l1 :: rest2) db = (db, .error .listingNotFound)) ∧
    pollOnce cenv env { polling := false, db := db } =
      (({ polling := false, db := db } : ListenerState),
        .error (.proc .listingNotFound)) ∧
    resolveFromBlock
      ((pollOnce cenv env { polling := false, db := db }).1.db) N =
      resolveFromBlock db N := by
  have hproc : processLog env l1 db = (db, .error .listingNotFound) := by
    simp [processLog, hbn, hh, hi, hdec, hL, hfresh, txHashFalsy, hne]
  have hlist : ∀ rest2 : List RawLog,
      processLogs env (l1 :: rest2) db = (db, .error .listingNotFound) := by
    intro rest2
    simp [processLogs, hproc]
  have hconf : N + cenv.confirmations - cenv.confirmations = N := by omega
  have hchunks : chunks N N MAX_BLOCK_CHUNK = [(N, N)] :=
    chunks_self N MAX_BLOCK_CHUNK (by norm_num [MAX_BLOCK_CHUNK])
  have hbody : pollBody cenv env db = (db, .error (.proc .listingNotFound)) := by
    unfold pollBody
    rw [hheight]
    simp only [hconf, resolveFromBlock, hlast]
    rw [if_neg (by omega), hchunks]
    unfold pollChunks
    rw [hlogs]
    simp only [hlist rest]
  have hpoll : pollOnce cenv env { polling := false, db := db } =
      (({ polling := false, db := db } : ListenerState),
        .error (.proc .listingNotFound)) := by
    unfold pollOnce
    simp [hbody]
  exact ⟨hlist, hpoll, by rw [hpoll]⟩

/-- Witness for C3: `logX` against `dbNoListingX`, whose listing table
is empty, via `cenvX`. -/
theorem c3_witness :
    (∀ rest2 : List RawLog,
      processLogs envX (logX :: rest2) dbNoListingX =
        (dbNoListingX, .error .listingNotFound)) ∧
    pollOnce cenvX envX { polling := false, db := dbNoListingX } =
      (({ polling := false, db := dbNoListingX } : ListenerState),
        .error (.proc .listingNotFound)) ∧
    resolveFromBlock
      ((pollOnce cenvX envX
        { polling := false, db := dbNoListingX }).1.db) 1500 =
      resolveFromBlock dbNoListingX 1500 :=
  c3_poll_fail_fast cenvX envX dbNoListingX 1500 logX [] 1500 "0xtx1" 0
    decodedX rfl rfl rfl rfl rfl (by decide) rfl (by decide) rfl rfl

/-- C5: the cursor resolution returns, when the EventLog table is
nonempty, exactly the highest persisted `blockNumber` (that same block,
not that block plus one), and on cold start falls back to a fixed
five-block window behind the confirmed height; consequently a cycle
whose cursor is the last EventLog block re-observes and indexes a
not-yet-indexed log at that same block. -/
theorem c5_cursor_resolution (db : Db) (c : Int) :
    (∀ b, lastEventBlock db = some b →
      resolveFromBlock db c = b ∧
      (∀ r ∈ db.eventLogs, r.blockNumber ≤ b) ∧
      ∃ r ∈ db.eventLogs, r.blockNumber = b) ∧
    (db.eventLogs ≠ [] → (lastEventBlock db).isSome) ∧
    (db.eventLogs = [] → resolveFromBlock db c = c - 5) ∧
    (∀ (cenv : ChainEnv) (env : Env) (l1 : RawLog) (N bn ix : Int)
        (tx : String) (d : DecodedArgs) (L : Listing),
      lastEventBlock db = some N →
      cenv.getBlockNumber = .ok (N + cenv.confirmations) →
      cenv.getLogs N N = .ok [l1] →
      l1.blockNumber = some bn →
      l1.transactionHash = some tx → tx ≠ "" →
      l1.logIndex = some ix →
      eventLogFindUnique db tx ix = none →
      purchaseFindUnique db tx = none →
      env.decode l1 = some d →
      listingFindUnique db d.listingId = some L →
      env.eventLogCreateFault = false →
      env.notifyFault = false →
      (pollOnce cenv env { polling := false, db := db }).2 = .ok () ∧
      (eventLogFindUnique
        (pollOnce cenv env { polling := false, db := db }).1.db tx ix).isSome ∧
      (purchaseFindUnique
        (pollOnce cenv env { polling := false, db := db }).1.db tx).isSome) := by
  refine ⟨?_, ?_, ?_, ?_⟩
  · intro b hb
    obtain ⟨h1, h2⟩ := lastEventBlock_is_max db b hb
    exact ⟨by simp [resolveFromBlock, hb], h1, h2⟩
  · exact lastEventBlock_isSome db
  · intro hempty
    simp [resolveFromBlock, lastEventBlock, hempty]
  · intro cenv env l1 N bn ix tx d L hlast hheight hlogs hbn hh hne hi hfresh
      hp hdec hL hf1 hf2
    have hchunks : chunks N N MAX_BLOCK_CHUNK = [(N, N)] :=
      chunks_self N MAX_BLOCK_CHUNK (by norm_num [MAX_BLOCK_CHUNK])
    have hconf : N + cenv.confirmations - cenv.confirmations = N := by omega
    have hproc : processLog env l1 db =
        ({ db with
            purchases := db.purchases ++
              [{ id := tx, listingId := L.id, buyerAddress := d.buyer,
                 txHash := tx, amountUsdc := toString d.amountUsdc,
                 txVerified := true, blockNumber := bn }]
            eventLogs := db.eventLogs ++
              [{ eventType := "PurchaseCompleted", txHash := tx,
                 logIndex := ix, blockNumber := bn, processed := true }] },
          .ok ()) := by
      simp [processLog, hbn, hh, hi, hdec, hL, hfresh, hf1, hf2, txHashFalsy,
        hne, purchaseUpsert, hp]
    have hbody : pollBody cenv env db =
        ({ db with
            purchases := db.purchases ++
              [{ id := tx, listingId := L.id, buyerAddress := d.buyer,
                 txHash := tx, amountUsdc := toString d.amountUsdc,
                 txVerified := true, blockNumber := bn }]
            eventLogs := db.eventLogs ++
              [{ eventType := "PurchaseCompleted", txHash := tx,
                 logIndex := ix, blockNumber := bn, processed := true }] },
          .ok ()) := by
      unfold pollBody
      rw [hheight]
      simp only [hconf, resolveFromBlock, hlast]
      rw [if_neg (by omega), hchunks]
      unfold pollChunks
      rw [hlogs]
      simp only [processLogs, hproc]
      unfold pollChunks
      rfl
    have hpoll : pollOnce cenv env { polling := false, db := db } =
        (({ polling := false, db := (pollBody cenv env db).1 } : ListenerState),
          (pollBody cenv env db).2) := by
      unfold pollOnce
      simp
    rw [hpoll, hbody]
    refine ⟨rfl, ?_, ?_⟩
    · unfold eventLogFindUnique at hfresh ⊢
      simp [List.find?_append, hfresh]
    · unfold purchaseFindUnique at hp ⊢
      simp [List.find?_append, hp]

/-- Witness for C5: nonempty case at `dbFreshX`, cold start at
`dbEmptyX`, and the re-observation scenario at `logX`. -/
theorem c5_witness :
    (resolveFromBlock dbFreshX 1505 = 1500 ∧
      (∀ r ∈ dbFreshX.eventLogs, r.blockNumber ≤ 1500) ∧
      ∃ r ∈ dbFreshX.eventLogs, r.blockNumber = 1500) ∧
    (lastEventBlock dbFreshX).isSome ∧
    resolveFromBlock dbEmptyX 1505 = 1505 - 5 ∧
    (pollOnce cenvX envX { polling := false, db := dbFreshX }).2 = .ok () ∧
    (eventLogFindUnique
      (pollOnce cenvX envX
        { polling := false, db := dbFreshX }).1.db "0xtx1" 0).isSome ∧
    (purchaseFindUnique
      (pollOnce cenvX envX
        { polling := false, db := dbFreshX }).1.db "0xtx1").isSome := by
  obtain ⟨h1, h2, h3⟩ := (c5_cursor_resolution dbFreshX 1505).2.2.2 cenvX envX
    logX 1500 1500 0 "0xtx1" decodedX listingX rfl rfl rfl rfl rfl (by decide)
    rfl (by decide) (by decide) rfl (by decide) rfl rfl
  exact ⟨(c5_cursor_resolution dbFreshX 1505).1 1500 rfl,
    (c5_cursor_resolution dbFreshX 1505).2.1 (by decide),
    (c5_cursor_resolution dbEmptyX 1505).2.2.1 rfl,
    h1, h2, h3⟩

/-- C9: the `polling` re-entrancy flag is cleared whenever a cycle that
actually entered finishes, on every outcome (the `finally` path), so a
failed cycle never leaves the guard set; a call that observes the guard
set is dropped unchanged, and a call that observes it clear runs the
cycle body. -/
theorem c9_polling_guard_reset (cenv : ChainEnv) (env : Env)
    (s : ListenerState) (h : s.polling = false) :
    (pollOnce cenv env s).1.polling = false ∧
    pollOnce cenv env s =
      (({ polling := false, db := (pollBody cenv env s.db).1 } : ListenerState),
        (pollBody cenv env s.db).2) ∧
    (∀ s2 : ListenerState, s2.polling = true →
      pollOnce cenv env s2 = (s2, .ok ())) := by
  refine ⟨?_, ?_, ?_⟩
  · unfold pollOnce
    rw [h]
    simp
  · unfold pollOnce
    rw [h]
    simp
  · intro s2 h2
    unfold pollOnce
    rw [h2]
    simp

/-- Witness for C9 at a concrete idle listener state. -/
theorem c9_witness :
    (pollOnce cenvX envX { polling := false, db := dbFreshX }).1.polling =
      false ∧
    pollOnce cenvX envX { polling := false, db := dbFreshX } =
      (({ polling := false,
          db := (pollBody cenvX envX dbFreshX).1 } : ListenerState),
        (pollBody cenvX envX dbFreshX).2) ∧
    (∀ s2 : ListenerState, s2.polling = true →
      pollOnce cenvX envX s2 = (s2, .ok ())) :=
  c9_polling_guard_reset cenvX envX { polling := false, db := dbFreshX } rfl

/-- C7: the Purchase upsert and the `processed = true` EventLog insert
run in one atomic transaction: when `tx.eventLog.create` raises after
the upsert, the whole transaction rolls back and the returned store is
exactly the pre-call store, so no Purchase row from that attempt
persists; when the transaction commits, both rows are present. -/
theorem c7_transaction_atomicity (env : Env) (log : RawLog) (db : Db)
    (bn : Int) (tx : String) (ix : Int) (d : DecodedArgs) (L : Listing)
    (hbn : log.blockNumber = some bn)
    (hh : log.transactionHash = some tx) (hne : tx ≠ "")
    (hi : log.logIndex = some ix)
    (hdec : env.decode log = some d)
    (hL : listingFindUnique db d.listingId = some L)
    (hfresh : eventLogFindUnique db tx ix = none)
    (hp : purchaseFindUnique db tx = none) :
    (env.eventLogCreateFault = true →
      processLog env log db = (db, .error .eventLogCreateFailed) ∧
      purchaseFindUnique (processLog env log db).1 tx = none ∧
      eventLogFindUnique (processLog env log db).1 tx ix = none) ∧
    (env.eventLogCreateFault = false → env.notifyFault = false →
      ∃ db1, processLog env log db = (db1, .ok ()) ∧
        (purchaseFindUnique db1 tx).isSome ∧
        (eventLogFindUnique db1 tx ix).isSome) := by
  constructor
  · intro hfault
    have heq : processLog env log db = (db, .error .eventLogCreateFailed) := by
      simp [processLog, hbn, hh, hi, hdec, hL, hfresh, hfault, txHashFalsy, hne]
    exact ⟨heq, by rw [heq]; exact hp, by rw [heq]; exact hfresh⟩
  · intro hf1 hf2
    have heq : processLog env log db =
        ({ db with
            purchases := db.purchases ++
              [{ id := tx, listingId := L.id, buyerAddress := d.buyer,
                 txHash := tx, amountUsdc := toString d.amountUsdc,
                 txVerified := true, blockNumber := bn }]
            eventLogs := db.eventLogs ++
              [{ eventType := "PurchaseCompleted", txHash := tx,
                 logIndex := ix, blockNumber := bn, processed := true }] },
          .ok ()) := by
      simp [processLog, hbn, hh, hi, hdec, hL, hfresh, hf1, hf2, txHashFalsy,
        hne, purchaseUpsert, hp]
    refine ⟨_, heq, ?_, ?_⟩
    · unfold purchaseFindUnique at hp ⊢
      simp [List.find?_append, hp]
    · unfold eventLogFindUnique at hfresh ⊢
      simp [List.find?_append, hfresh]

/-- Witness for C7: the fault branch under `envFaultX` and the commit
branch under `envX`, both at `logX` against `dbFreshX`. -/
theorem c7_witness :
    (processLog envFaultX logX dbFreshX =
        (dbFreshX, .error .eventLogCreateFailed) ∧
      purchaseFindUnique (processLog envFaultX logX dbFreshX).1 "0xtx1" =
        none ∧
      eventLogFindUnique (processLog envFaultX logX dbFreshX).1 "0xtx1" 0 =
        none) ∧
    (∃ db1, processLog envX logX dbFreshX = (db1, .ok ()) ∧
      (purchaseFindUnique db1 "0xtx1").isSome ∧
      (eventLogFindUnique db1 "0xtx1" 0).isSome) :=
  ⟨(c7_transaction_atomicity envFaultX logX dbFreshX 1500 "0xtx1" 0 decodedX
      listingX rfl rfl (by decide) rfl rfl (by decide) (by decide) rfl).1 rfl,
   (c7_transaction_atomicity envX logX dbFreshX 1500 "0xtx1" 0 decodedX
      listingX rfl rfl (by decide) rfl rfl (by decide) (by decide) rfl).2
      rfl rfl⟩

/-- C8: the seller notification happens outside the committed
transaction: its outcome never changes the resulting store (for every
environment, log and store); and when `notifySeller` raises after the
commit, the call reports the notification error while the Purchase row
and the `processed = true` EventLog row remain persisted — the store is
the same one the successful-notification run produces, and the write is
not rolled back or retried. -/
theorem c8_notification_after_commit (env : Env) (log : RawLog) (db : Db)
    (bn : Int) (tx : String) (ix : Int) (d : DecodedArgs) (L : Listing)
    (hbn : log.blockNumber = some bn)
    (hh : log.transactionHash = some tx) (hne : tx ≠ "")
    (hi : log.logIndex = some ix)
    (hdec : env.decode log = some d)
    (hL : listingFindUnique db d.listingId = some L)
    (hfresh : eventLogFindUnique db tx ix = none)
    (hp : purchaseFindUnique db tx = none)
    (hf1 : env.eventLogCreateFault = false)
    (hfn : env.notifyFault = true) :
    (∀ (e2 : Env) (l2 : RawLog) (d2 : Db),
      (processLog { e2 with notifyFault := true } l2 d2).1 =
      (processLog { e2 with notifyFault := false } l2 d2).1) ∧
    processLog env log db =
      ((processLog { env with notifyFault := false } log db).1,
        .error .notifyFailed) ∧
    (eventLogFindUnique (processLog env log db).1 tx ix).isSome ∧
    (purchaseFindUnique (processLog env log db).1 tx).isSome := by
  have hT : processLog env log db =
      ({ db with
          purchases := db.purchases ++
            [{ id := tx, listingId := L.id, buyerAddress := d.buyer,
               txHash := tx, amountUsdc := toString d.amountUsdc,
               txVerified := true, blockNumber := bn }]
          eventLogs := db.eventLogs ++
            [{ eventType := "PurchaseCompleted", txHash := tx,
               logIndex := ix, blockNumber := bn, processed := true }] },
        .error .notifyFailed) := by
    simp [processLog, hbn, hh, hi, hdec, hL, hfresh, hf1, hfn, txHashFalsy,
      hne, purchaseUpsert, hp]
  have hF : processLog { env with notifyFault := false } log db =
      ({ db with
          purchases := db.purchases ++
            [{ id := tx, listingId := L.id, buyerAddress := d.buyer,
               txHash := tx, amountUsdc := toString d.amountUsdc,
               txVerified := true, blockNumber := bn }]
          eventLogs := db.eventLogs ++
            [{ eventType := "PurchaseCompleted", txHash := tx,
               logIndex := ix, blockNumber := bn, processed := true }] },
        .ok ()) := by
    simp [processLog, hbn, hh, hi, hdec, hL, hfresh, hf1, txHashFalsy, hne,
      purchaseUpsert, hp]
  refine ⟨?_, ?_, ?_, ?_⟩
  · intro e2 l2 d2
    simp only [processLog]
    repeat' split
    all_goals simp_all
  · rw [hT, hF]
  · rw [hT]
    unfold eventLogFindUnique at hfresh ⊢
    simp [List.find?_append, hfresh]
  · rw [hT]
    unfold purchaseFindUnique at hp ⊢
    simp [List.find?_append, hp]

/-- Witness for C8: `envNotifyX` (raising notification) at `logX`
against `dbFreshX`. -/
theorem c8_witness :
    (∀ (e2 : Env) (l2 : RawLog) (d2 : Db),
      (processLog { e2 with notifyFault := true } l2 d2).1 =
      (processLog { e2 with notifyFault := false } l2 d2).1) ∧
    processLog envNotifyX logX dbFreshX =
      ((processLog { envNotifyX with notifyFault := false } logX dbFreshX).1,
        .error .notifyFailed) ∧
    (eventLogFindUnique
      (processLog envNotifyX logX dbFreshX).1 "0xtx1" 0).isSome ∧
    (purchaseFindUnique
      (processLog envNotifyX logX dbFreshX).1 "0xtx1").isSome :=
  c8_notification_after_commit envNotifyX logX dbFreshX 1500 "0xtx1" 0
    decodedX listingX rfl rfl (by decide) rfl rfl (by decide) (by decide)
    rfl rfl rfl

/-- C6 counterexample: replaying the already-indexed `logX` through
`backfillRange` in live mode classifies the event as created, not
skipped — the report shows `eventsSkipped = 0` and `eventsCreated = 1`,
refuting the claim that live mode yields `skipped = 1, created = 0`. -/
theorem c6_counterexample :
    (backfillRange cenvX envX 1500 1500 false dbIndexedX).map
      (fun p => (p.2.eventsSkipped, p.2.eventsCreated)) = .ok (0, 1) ∧
    ¬ (backfillRange cenvX envX 1500 1500 false dbIndexedX).map
      (fun p => (p.2.eventsSkipped, p.2.eventsCreated)) = .ok (1, 0) := by
  have hchunks : chunks 1500 1500 MAX_BLOCK_CHUNK = [(1500, 1500)] :=
    chunks_self 1500 MAX_BLOCK_CHUNK (by norm_num [MAX_BLOCK_CHUNK])
  have h0 : backfillRange cenvX envX 1500 1500 false dbIndexedX =
      backfillChunks cenvX envX false (chunks 1500 1500 MAX_BLOCK_CHUNK)
        dbIndexedX
        { fromBlock := 1500, toBlock := 1500, dryRun := false,
          blocksScanned := 0, eventsFound := 0, eventsCreated := 0,
          eventsSkipped := 0, eventsFailed := 0, events := [] } := rfl
  have h1 : (backfillRange cenvX envX 1500 1500 false dbIndexedX).map
      (fun p => (p.2.eventsSkipped, p.2.eventsCreated)) = .ok (0, 1) := by
    rw [h0, hchunks]
    rfl
  refine ⟨h1, fun hcon => ?_⟩
  rw [h1] at hcon
  simp at hcon

/-- C6 as amended: replaying one already-indexed log through
`backfillRange` yields `skipped = 1, created = 0` in dry-run mode only;
in live mode the write path is a no-op (the store is unchanged, thanks
to the dedup check in `processLog`), but the report counts the event as
created: `created = 1, skipped = 0`. -/
theorem c6_backfill_replay_classification (cenv : ChainEnv) (env : Env)
    (db : Db) (N : Int) (l1 : RawLog) (bn : Int) (tx : String) (ix : Int)
    (d : DecodedArgs) (row : EventLogRow)
    (hlogs : cenv.getLogs N N = .ok [l1])
    (hbn : l1.blockNumber = some bn)
    (hh : l1.transactionHash = some tx) (hne : tx ≠ "")
    (hi : l1.logIndex = some ix)
    (hindexed : eventLogFindUnique db tx ix = some row)
    (hdec : env.decode l1 = some d) :
    backfillRange cenv env N N true db = .ok (db,
      { fromBlock := N, toBlock := N, dryRun := true, blocksScanned := 1,
        eventsFound := 1, eventsCreated := 0, eventsSkipped := 1,
        eventsFailed := 0,
        events := [{ txHash := tx, logIndex := ix, blockNumber := bn,
                     listingId := toString d.listingId, buyer := d.buyer,
                     amountUsdc := toString d.amountUsdc,
                     status := .skipped, errText := none }] }) ∧
    backfillRange cenv env N N false db = .ok (db,
      { fromBlock := N, toBlock := N, dryRun := false, blocksScanned := 1,
        eventsFound := 1, eventsCreated := 1, eventsSkipped := 0,
        eventsFailed := 0,
        events := [{ txHash := tx, logIndex := ix, blockNumber := bn,
                     listingId := toString d.listingId, buyer := d.buyer,
                     amountUsdc := toString d.amountUsdc,
                     status := .created, errText := none }] }) := by
  have hchunks : chunks N N MAX_BLOCK_CHUNK = [(N, N)] :=
    chunks_self N MAX_BLOCK_CHUNK (by norm_num [MAX_BLOCK_CHUNK])
  have hinspect : inspectLog env l1 db = .ok
      { txHash := tx, logIndex := ix, blockNumber := bn,
        alreadyProcessed := true, listingId := toString d.listingId,
        buyer := d.buyer, amountUsdc := toString d.amountUsdc } := by
    simp [inspectLog, hdec, hh, hi, hbn, hindexed]
  have hproc : processLog env l1 db = (db, .ok ()) := by
    simp [processLog, hbn, hh, hi, hindexed, txHashFalsy, hne]
  constructor
  · simp [backfillRange, hchunks, backfillChunks, hlogs, backfillLogs, hbn,
      hh, hi, txHashFalsy, hne, hinspect, hproc]
  · simp [backfillRange, hchunks, backfillChunks, hlogs, backfillLogs, hbn,
      hh, hi, txHashFalsy, hne, hinspect, hproc]

/-- Witness for the amended C6 at the concrete fixture: `logX` replayed
against `dbIndexedX`, in which its key is already in the ledger. -/
theorem c6_witness :
    (backfillRange cenvX envX 1500 1500 true dbIndexedX).map
      (fun p => (p.2.eventsSkipped, p.2.eventsCreated)) = .ok (1, 0) ∧
    (backfillRange cenvX envX 1500 1500 false dbIndexedX).map
      (fun p => (p.1, p.2.eventsSkipped, p.2.eventsCreated)) =
      .ok (dbIndexedX, 0, 1) := by
  have h := c6_backfill_replay_classification cenvX envX dbIndexedX 1500 logX
    1500 "0xtx1" 0 decodedX rowIndexedX rfl rfl rfl (by decide) rfl
    (by decide) rfl
  rw [h.1, h.2]
  exact ⟨rfl, rfl⟩

/-- C10: a fetched log missing `blockNumber`, `transactionHash` or
`logIndex` is counted in `eventsFound` but skipped before
classification: it increments none of `eventsCreated`, `eventsSkipped`,
`eventsFailed` and appears nowhere in the report's events list, so the
report has `eventsFound` strictly greater than the sum of the three
classification counters. -/
theorem c10_malformed_log_uncounted (cenv : ChainEnv) (env : Env) (db : Db)
    (N : Int) (log : RawLog) (dr : Bool)
    (hlogs : cenv.getLogs N N = .ok [log])
    (hmiss : (log.blockNumber.isNone || txHashFalsy log.transactionHash
      || log.logIndex.isNone) = true) :
    backfillRange cenv env N N dr db = .ok (db,
      { fromBlock := N, toBlock := N, dryRun := dr, blocksScanned := 1,
        eventsFound := 1, eventsCreated := 0, eventsSkipped := 0,
        eventsFailed := 0, events := [] }) ∧
    (∀ r2, backfillRange cenv env N N dr db = .ok (db, r2) →
      r2.eventsCreated + r2.eventsSkipped + r2.eventsFailed <
        r2.eventsFound) := by
  have hchunks : chunks N N MAX_BLOCK_CHUNK = [(N, N)] :=
    chunks_self N MAX_BLOCK_CHUNK (by norm_num [MAX_BLOCK_CHUNK])
  have h1 : backfillRange cenv env N N dr db = .ok (db,
      { fromBlock := N, toBlock := N, dryRun := dr, blocksScanned := 1,
        eventsFound := 1, eventsCreated := 0, eventsSkipped := 0,
        eventsFailed := 0, events := [] }) := by
    simp [backfillRange, hchunks, backfillChunks, hlogs, backfillLogs, hmiss]
  refine ⟨h1, ?_⟩
  intro r2 hr2
  rw [h1] at hr2
  injection hr2 with h3
  simp only [Prod.mk.injEq] at h3
  rw [← h3.2]
  norm_num

/-- Witness for C10: a batch holding one log with all key fields null. -/
theorem c10_witness :
    backfillRange cenvBadX envX 1500 1500 false dbFreshX = .ok (dbFreshX,
      { fromBlock := 1500, toBlock := 1500, dryRun := false,
        blocksScanned := 1, eventsFound := 1, eventsCreated := 0,
        eventsSkipped := 0, eventsFailed := 0, events := [] }) ∧
    (∀ r2, backfillRange cenvBadX envX 1500 1500 false dbFreshX =
        .ok (dbFreshX, r2) →
      r2.eventsCreated + r2.eventsSkipped + r2.eventsFailed <
        r2.eventsFound) :=
  c10_malformed_log_uncounted cenvBadX envX dbFreshX 1500 logBadX false
    rfl rfl

/-- C2 counterexample: at the concrete failing log `logX` (its listing
is absent from `dbNoListingX`), the polling cycle raises yet the ledger
afterwards contains no `processed = false` EventLog row at all, and the
live backfill run likewise leaves the ledger without any
`processed = false` row while counting the failure only in its returned
report — no caller records the failure as an EventLog row. -/
theorem c2_counterexample :
    (pollOnce cenvX envX { polling := false, db := dbNoListingX }).2 =
      .error (.proc .listingNotFound) ∧
    (pollOnce cenvX envX
      { polling := false, db := dbNoListingX }).1.db.eventLogs.filter
      (fun r2 => !r2.processed) = [] ∧
    (backfillRange cenvX envX 1500 1500 false dbNoListingX).map
      (fun p => (p.1.eventLogs.filter (fun r2 => !r2.processed),
        p.2.eventsFailed)) = .ok ([], 1) := by
  have hchunks : chunks 1500 1500 MAX_BLOCK_CHUNK = [(1500, 1500)] :=
    chunks_self 1500 MAX_BLOCK_CHUNK (by norm_num [MAX_BLOCK_CHUNK])
  have h0 : pollOnce cenvX envX { polling := false, db := dbNoListingX } =
      (({ polling := false,
          db := (pollChunks cenvX envX (chunks 1500 1500 MAX_BLOCK_CHUNK)
            dbNoListingX).1 } : ListenerState),
        (pollChunks cenvX envX (chunks 1500 1500 MAX_BLOCK_CHUNK)
          dbNoListingX).2) := rfl
  have hb0 : backfillRange cenvX envX 1500 1500 false dbNoListingX =
      backfillChunks cenvX envX false (chunks 1500 1500 MAX_BLOCK_CHUNK)
        dbNoListingX
        { fromBlock := 1500, toBlock := 1500, dryRun := false,
          blocksScanned := 0, eventsFound := 0, eventsCreated := 0,
          eventsSkipped := 0, eventsFailed := 0, events := [] } := rfl
  refine ⟨?_, ?_, ?_⟩
  · rw [h0, hchunks]
    rfl
  · rw [h0, hchunks]
    rfl
  · rw [hb0, hchunks]
    rfl

/-- C2 as amended: when processing a log raises in steps 3-5 — a decode
failure (step 3), a missing listing (step 4), or a transaction write
that raises (step 5) — neither caller records a `processed = false`
EventLog row.  The poller merely propagates the raised error and leaves
the store — including the ledger — completely unchanged; the backfill
runner records the failure with its error text only in the returned
report (a `status = error` detail and the `eventsFailed` counter), also
leaving the store unchanged. -/
theorem c2_failure_in_report_only (cenv : ChainEnv) (env : Env) (db : Db)
    (N : Int) (l1 : RawLog) (bn : Int) (tx : String) (ix : Int)
    (hlast : lastEventBlock db = some N)
    (hheight : cenv.getBlockNumber = .ok (N + cenv.confirmations))
    (hlogs : cenv.getLogs N N = .ok [l1])
    (hbn : l1.blockNumber = some bn)
    (hh : l1.transactionHash = some tx) (hne : tx ≠ "")
    (hi : l1.logIndex = some ix)
    (hfresh : eventLogFindUnique db tx ix = none)
    (hfail : env.decode l1 = none ∨
      (∃ d, env.decode l1 = some d ∧
        listingFindUnique db d.listingId = none) ∨
      (∃ d L, env.decode l1 = some d ∧
        listingFindUnique db d.listingId = some L ∧
        env.eventLogCreateFault = true)) :
    ∃ e : ProcErr,
      processLog env l1 db = (db, .error e) ∧
      pollOnce cenv env { polling := false, db := db } =
        (({ polling := false, db := db } : ListenerState),
          .error (.proc e)) ∧
      backfillRange cenv env N N false db = .ok (db,
        { fromBlock := N, toBlock := N, dryRun := false, blocksScanned := 1,
          eventsFound := 1, eventsCreated := 0, eventsSkipped := 0,
          eventsFailed := 1,
          events := [{ txHash := tx, logIndex := ix, blockNumber := bn,
                       listingId := "unknown", buyer := "unknown",
                       amountUsdc := "unknown", status := .failed,
                       errText := some e.message }] }) ∧
      (pollOnce cenv env
        { polling := false, db := db }).1.db.eventLogs.filter
        (fun r2 => !r2.processed) =
        db.eventLogs.filter (fun r2 => !r2.processed) := by
  obtain ⟨e, hproc⟩ : ∃ e, processLog env l1 db = (db, .error e) := by
    rcases hfail with hA | ⟨d, hd, hLn⟩ | ⟨d, L, hd, hLs, hfault⟩
    · exact ⟨.decodeFailed,
        by simp [processLog, hbn, hh, hi, hA, txHashFalsy, hne, hfresh]⟩
    · exact ⟨.listingNotFound,
        by simp [processLog, hbn, hh, hi, hd, hLn, txHashFalsy, hne, hfresh]⟩
    · exact ⟨.eventLogCreateFailed,
        by simp [processLog, hbn, hh, hi, hd, hLs, hfault, txHashFalsy, hne,
          hfresh]⟩
  have hconf : N + cenv.confirmations - cenv.confirmations = N := by omega
  have hchunks : chunks N N MAX_BLOCK_CHUNK = [(N, N)] :=
    chunks_self N MAX_BLOCK_CHUNK (by norm_num [MAX_BLOCK_CHUNK])
  have hbody : pollBody cenv env db = (db, .error (.proc e)) := by
    unfold pollBody
    rw [hheight]
    simp only [hconf, resolveFromBlock, hlast]
    rw [if_neg (by omega), hchunks]
    unfold pollChunks
    rw [hlogs]
    simp only [processLogs, hproc]
  have hpoll : pollOnce cenv env { polling := false, db := db } =
      (({ polling := false, db := db } : ListenerState),
        .error (.proc e)) := by
    unfold pollOnce
    simp [hbody]
  refine ⟨e, hproc, hpoll, ?_, by rw [hpoll]⟩
  simp [backfillRange, hchunks, backfillChunks, hlogs, backfillLogs, hbn, hh,
    hi, txHashFalsy, hne, hproc]

/-- Witness for the amended C2 at three concrete failing fixtures, one
per failure mode of steps 3-5: a decode failure under `envNoDecodeX`, a
missing listing in `dbNoListingX`, and a raising `tx.eventLog.create`
under `envFaultX`. -/
theorem c2_witness :
    (∃ e : ProcErr,
      processLog envNoDecodeX logX dbFreshX = (dbFreshX, .error e) ∧
      pollOnce cenvX envNoDecodeX { polling := false, db := dbFreshX } =
        (({ polling := false, db := dbFreshX } : ListenerState),
          .error (.proc e)) ∧
      backfillRange cenvX envNoDecodeX 1500 1500 false dbFreshX =
        .ok (dbFreshX,
        { fromBlock := 1500, toBlock := 1500, dryRun := false,
          blocksScanned := 1, eventsFound := 1, eventsCreated := 0,
          eventsSkipped := 0, eventsFailed := 1,
          events := [{ txHash := "0xtx1", logIndex := 0, blockNumber := 1500,
                       listingId := "unknown", buyer := "unknown",
                       amountUsdc := "unknown", status := .failed,
                       errText := some e.message }] }) ∧
      (pollOnce cenvX envNoDecodeX
        { polling := false, db := dbFreshX }).1.db.eventLogs.filter
        (fun r2 => !r2.processed) =
        dbFreshX.eventLogs.filter (fun r2 => !r2.processed)) ∧
    (∃ e : ProcErr,
      processLog envX logX dbNoListingX = (dbNoListingX, .error e) ∧
      pollOnce cenvX envX { polling := false, db := dbNoListingX } =
        (({ polling := false, db := dbNoListingX } : ListenerState),
          .error (.proc e)) ∧
      backfillRange cenvX envX 1500 1500 false dbNoListingX =
        .ok (dbNoListingX,
        { fromBlock := 1500, toBlock := 1500, dryRun := false,
          blocksScanned := 1, eventsFound := 1, eventsCreated := 0,
          eventsSkipped := 0, eventsFailed := 1,
          events := [{ txHash := "0xtx1", logIndex := 0, blockNumber := 1500,
                       listingId := "unknown", buyer := "unknown",
                       amountUsdc := "unknown", status := .failed,
                       errText := some e.message }] }) ∧
      (pollOnce cenvX envX
        { polling := false, db := dbNoListingX }).1.db.eventLogs.filter
        (fun r2 => !r2.processed) =
        dbNoListingX.eventLogs.filter (fun r2 => !r2.processed)) ∧
    (∃ e : ProcErr,
      processLog envFaultX logX dbFreshX = (dbFreshX, .error e) ∧
      pollOnce cenvX envFaultX { polling := false, db := dbFreshX } =
        (({ polling := false, db := dbFreshX } : ListenerState),
          .error (.proc e)) ∧
      backfillRange cenvX envFaultX 1500 1500 false dbFreshX =
        .ok (dbFreshX,
        { fromBlock := 1500, toBlock := 1500, dryRun := false,
          blocksScanned := 1, eventsFound := 1, eventsCreated := 0,
          eventsSkipped := 0, eventsFailed := 1,
          events := [{ txHash := "0xtx1", logIndex := 0, blockNumber := 1500,
                       listingId := "unknown", buyer := "unknown",
                       amountUsdc := "unknown", status := .failed,
                       errText := some e.message }] }) ∧
      (pollOnce cenvX envFaultX
        { polling := false, db := dbFreshX }).1.db.eventLogs.filter
        (fun r2 => !r2.processed) =
        dbFreshX.eventLogs.filter (fun r2 => !r2.processed)) :=
  ⟨c2_failure_in_report_only cenvX envNoDecodeX dbFreshX 1500 logX 1500
      "0xtx1" 0 rfl rfl rfl rfl rfl (by decide) rfl (by decide)
      (Or.inl rfl),
   c2_failure_in_report_only cenvX envX dbNoListingX 1500 logX 1500
      "0xtx1" 0 rfl rfl rfl rfl rfl (by decide) rfl (by decide)
      (Or.inr (Or.inl ⟨decodedX, rfl, by decide⟩)),
   c2_failure_in_report_only cenvX envFaultX dbFreshX 1500 logX 1500
      "0xtx1" 0 rfl rfl rfl rfl rfl (by decide) rfl (by decide)
      (Or.inr (Or.inr ⟨decodedX, listingX, rfl, by decide, rfl⟩))⟩

end Marketplace
